import Mathlib

/-!
# Verification of the terminal Tetris game and its heuristic AI

Shallow embedding of `tetris.py` (board model, game state machine) and
`tetris_ai.py` (board evaluator, two-ply move search), together with
theorems settling the frozen claims about them.

Conventions used throughout the embedding:
* Python board cells are strings; `' '` is the empty cell and any other
  string (an ANSI color code) marks an occupied cell.  We keep cells as
  `String`.
* Python `float` arithmetic is modelled by `ℚ` (exact real semantics);
  machine integers are `Nat`/`Int`.
* `for`-loops with early `return`/`continue` become `List.all` /
  `List.foldl` over `List.range`, mirroring `enumerate`/`range` indexing.
* Python list indexing `l[i]` (always in range at the call sites, for
  well-formed boards) is rendered with `List.getD`.
* Fallible code (Python list indexing that can raise `IndexError`)
  returns `Except String _`.
* `random.choice` / `time.time()` results are passed in as explicit
  parameters.
-/

set_option linter.unusedVariables false

/-- Decidable equality on `Except`, for evaluating the embedding on
concrete inputs. -/
instance {ε α : Type _} [DecidableEq ε] [DecidableEq α] : DecidableEq (Except ε α)
  | .ok a, .ok b => if h : a = b then .isTrue (by rw [h]) else .isFalse (by simp [h])
  | .ok _, .error _ => .isFalse (by simp)
  | .error _, .ok _ => .isFalse (by simp)
  | .error e, .error f => if h : e = f then .isTrue (by rw [h]) else .isFalse (by simp [h])

/-- A board cell: the string `" "` is empty, a color string is occupied. -/
abbrev Cell := String

/-- The empty cell `' '`. -/
def emptyCell : Cell := " "

/-- `Color.GREEN` from the source (the only color ever assigned to cells). -/
def GREEN : String := "\x1b[92m"

/-- A board: a list of rows, each a list of cells.  Row 0 is the top. -/
abbrev Board := List (List Cell)

/-- The `SHAPES` table: rotation states of each of the 7 tetrominoes,
each state a 2D 0/1 occupancy pattern, exactly as in the source. -/
def SHAPES (t : String) : List (List (List Nat)) :=
  if t = "I" then [[[1, 1, 1, 1]], [[1], [1], [1], [1]]]
  else if t = "O" then [[[1, 1], [1, 1]]]
  else if t = "T" then [[[0, 1, 0], [1, 1, 1]], [[1, 0], [1, 1], [1, 0]],
                        [[1, 1, 1], [0, 1, 0]], [[0, 1], [1, 1], [0, 1]]]
  else if t = "S" then [[[0, 1, 1], [1, 1, 0]], [[1, 0], [1, 1], [0, 1]]]
  else if t = "Z" then [[[1, 1, 0], [0, 1, 1]], [[0, 1], [1, 1], [1, 0]]]
  else if t = "J" then [[[1, 0, 0], [1, 1, 1]], [[1, 1], [1, 0], [1, 0]],
                        [[1, 1, 1], [0, 0, 1]], [[0, 1], [0, 1], [1, 1]]]
  else if t = "L" then [[[0, 0, 1], [1, 1, 1]], [[1, 0], [1, 0], [1, 1]],
                        [[1, 1, 1], [1, 0, 0]], [[1, 1], [0, 1], [0, 1]]]
  else []

/-- `COLORS` table: every shape kind maps to green (classic monochrome). -/
def COLORS (t : String) : String := GREEN

/-- A tetromino instance: shape kind, rotation index, current occupancy
pattern (`shape = SHAPES type !! rotation` for pieces built by the game),
and anchor position.  `x`/`y` are `Int`: `y` may be negative (spawn zone).
The Python attribute `shapes` is always `SHAPES[type]`, so it is kept as a
derived function rather than a field. -/
structure Tetromino where
  type : String
  rotation : Nat
  shape : List (List Nat)
  x : Int
  y : Int
deriving Repr, DecidableEq

/-- The Python attribute `piece.shapes`. -/
def Tetromino.shapesOf (p : Tetromino) : List (List (List Nat)) := SHAPES p.type

/-- The Python attribute `piece.color` (set once from `COLORS` in the
constructor and never changed). -/
def Tetromino.color (p : Tetromino) : String := COLORS p.type

/-- `Tetromino(shape_type)`: fresh piece, rotation 0, at the origin.
(For an invalid `shape_type` the Python constructor raises; all call
sites construct only the 7 valid kinds.) -/
def Tetromino.mkNew (t : String) : Tetromino :=
  { type := t, rotation := 0, shape := (SHAPES t).getD 0 [], x := 0, y := 0 }

/-- `Tetromino.rotate_cw`: advance the rotation index cyclically and
refresh `shape` from the table. -/
def Tetromino.rotate_cw (p : Tetromino) : Tetromino :=
  let r := (p.rotation + 1) % (SHAPES p.type).length
  { p with rotation := r, shape := (SHAPES p.type).getD r [] }

/-- The game state: board plus scoring/level bookkeeping, flags, the
active and preview pieces, and the fall timer (`float`s as `ℚ`). -/
structure TetrisGame where
  width : Nat
  height : Nat
  board : Board
  score : Nat
  level : Nat
  lines_cleared : Nat
  game_over : Bool
  paused : Bool
  current_piece : Tetromino
  next_piece : Tetromino
  fall_speed : ℚ
  last_fall_time : ℚ
deriving Repr, DecidableEq

/-- Board well-formedness: exactly `height` rows of `width` cells.  The
constructor establishes this and no operation breaks it. -/
def TetrisGame.WF (g : TetrisGame) : Prop :=
  g.board.length = g.height ∧ ∀ row ∈ g.board, row.length = g.width

instance (g : TetrisGame) : Decidable g.WF := by
  unfold TetrisGame.WF; infer_instance

/-- `spawn_piece` with the random shape kind passed explicitly: centered
horizontally, anchored two rows above the board.  (`(width - len) // 2`
is a `Nat` division here; at every call site `width ≥ 4 ≥ len`.) -/
def TetrisGame.spawn_piece (g : TetrisGame) (t : String) : Tetromino :=
  let p := Tetromino.mkNew t
  { p with x := ((g.width - (p.shape.getD 0 []).length) / 2 : Nat), y := -2 }

/-- `valid_position(piece, offset_x, offset_y)`: every occupied cell of
the piece at the hypothetical offset must be inside `[0,width)`
horizontally, above `height` vertically, and (when its row is `≥ 0`) on
an empty board cell. -/
def TetrisGame.valid_position (g : TetrisGame) (p : Tetromino)
    (offset_x offset_y : Int) : Bool :=
  (List.range p.shape.length).all fun r =>
    (List.range (p.shape.getD r []).length).all fun c =>
      if (p.shape.getD r []).getD c 0 ≠ 0 then
        let new_y : Int := p.y + r + offset_y
        let new_x : Int := p.x + c + offset_x
        if new_x < 0 ∨ (g.width : Int) ≤ new_x ∨ (g.height : Int) ≤ new_y then
          false
        else if 0 ≤ new_y ∧
            (g.board.getD new_y.toNat []).getD new_x.toNat emptyCell ≠ emptyCell then
          false
        else true
      else true

/-- Write `color` into the board at integer coordinates, guarded exactly
as in the source (`0 <= y < height and 0 <= x < width`). -/
def boardSet (height width : Nat) (b : Board) (y x : Int) (color : Cell) : Board :=
  if 0 ≤ y ∧ y < (height : Int) ∧ 0 ≤ x ∧ x < (width : Int) then
    b.set y.toNat ((b.getD y.toNat []).set x.toNat color)
  else b

/-- `place_piece`: write the current piece's occupied cells into the
board (cells outside the board are skipped by the bounds guard). -/
def TetrisGame.place_piece (g : TetrisGame) : TetrisGame :=
  let p := g.current_piece
  { g with board :=
      (List.range p.shape.length).foldl (fun b r =>
        (List.range (p.shape.getD r []).length).foldl (fun b c =>
          if (p.shape.getD r []).getD c 0 ≠ 0 then
            boardSet g.height g.width b (p.y + r) (p.x + c) p.color
          else b) b) g.board }

/-- A row with no empty cell. -/
def isFullRow (row : List Cell) : Bool := row.all (fun cell => cell != emptyCell)

/-- Python's two-argument `max`: returns the second argument exactly
when it is strictly greater. -/
def pyMax (a b : ℚ) : ℚ := if a < b then b else a

/-- The scoring table `points = [0, 100, 300, 500, 800]`. -/
def POINTS : List Nat := [0, 100, 300, 500, 800]

/-- `clear_lines`: collect the indices of full rows, then for each (in
increasing order) delete that row and prepend a fresh empty row; then
update score/lines/level/fall speed.  `points[num_lines]` raises
`IndexError` when more than 4 rows are full, hence the `Except`. -/
def TetrisGame.clear_lines (g : TetrisGame) : Except String (Nat × TetrisGame) :=
  let lines_to_clear : List Nat :=
    (List.range g.height).filter fun r => isFullRow (g.board.getD r [])
  let board :=
    lines_to_clear.foldl (fun b r =>
      List.replicate g.width emptyCell :: b.eraseIdx r) g.board
  let num_lines := lines_to_clear.length
  if num_lines > 0 then
    match POINTS.get? num_lines with
    | none => .error "IndexError"
    | some pts =>
      let score := g.score + pts * g.level
      let lines_cleared := g.lines_cleared + num_lines
      let level := lines_cleared / 10 + 1
      let fall_speed := pyMax (0.1 : ℚ) (0.8 - ((level : ℚ) - 1) * 0.05)
      .ok (num_lines, { g with board := board, score := score,
                               lines_cleared := lines_cleared, level := level,
                               fall_speed := fall_speed })
  else .ok (num_lines, { g with board := board })

/-- `move_down`: shift the piece down one row iff legal; also report
whether it moved. -/
def TetrisGame.move_down (g : TetrisGame) : TetrisGame × Bool :=
  if g.valid_position g.current_piece 0 1 then
    ({ g with current_piece := { g.current_piece with y := g.current_piece.y + 1 } }, true)
  else (g, false)

/-- The wall-kick offsets tried, in order, by `rotate`. -/
def KICKS : List (Int × Int) := [(-1, 0), (1, 0), (0, -1), (-2, 0), (2, 0)]

/-- The kick-search loop of `rotate`: try each offset in order, applying
the first legal one to the piece's position; if none is legal, revert
the rotation index and shape (position untouched). -/
def tryKicks (g : TetrisGame) (p' : Tetromino) (old_rotation : Nat) :
    List (Int × Int) → TetrisGame
  | [] => { g with current_piece :=
      { p' with rotation := old_rotation,
                shape := (SHAPES p'.type).getD old_rotation [] } }
  | o :: rest =>
    if g.valid_position p' o.1 o.2 then
      { g with current_piece := { p' with x := p'.x + o.1, y := p'.y + o.2 } }
    else tryKicks g p' old_rotation rest

/-- `rotate`: rotate the current piece clockwise; if the result is
illegal, try the wall kicks; if all fail, revert. -/
def TetrisGame.rotate (g : TetrisGame) : TetrisGame :=
  let old_rotation := g.current_piece.rotation
  let p' := g.current_piece.rotate_cw
  if g.valid_position p' 0 0 then { g with current_piece := p' }
  else tryKicks g p' old_rotation KICKS

/-- The part of `lock_piece` before the game-over check: place the
piece, clear lines, promote the preview piece, spawn a fresh preview
(random kind `tNext`), reset the fall timer to `now`. -/
def TetrisGame.lock_piece_pre (g : TetrisGame) (tNext : String) (now : ℚ) :
    Except String TetrisGame := do
  let (_, g1) ← (g.place_piece).clear_lines
  let g2 := { g1 with current_piece := g1.next_piece,
                      next_piece := g1.spawn_piece tNext,
                      last_fall_time := now }
  return g2

/-- `lock_piece`: the steps above, then set `game_over` iff the newly
promoted piece is in an illegal position. -/
def TetrisGame.lock_piece (g : TetrisGame) (tNext : String) (now : ℚ) :
    Except String TetrisGame := do
  let g2 ← g.lock_piece_pre tNext now
  if ¬ g2.valid_position g2.current_piece 0 0 then
    return { g2 with game_over := true }
  else
    return g2

/-- `update`: no-op while paused or game-over; otherwise, if the fall
interval elapsed, soft-drop (locking on failure) and reset the timer. -/
def TetrisGame.update (g : TetrisGame) (now : ℚ) (tNext : String) :
    Except String TetrisGame :=
  if g.game_over || g.paused then .ok g
  else if g.fall_speed ≤ now - g.last_fall_time then
    let (g', moved) := g.move_down
    if moved then .ok { g' with last_fall_time := now }
    else do
      let g'' ← g'.lock_piece tNext now
      return { g'' with last_fall_time := now }
  else .ok g

/-! ## Line clearing: structural lemmas (claim C1) -/

/-- The indices of the full rows of a board, in increasing order — the
`lines_to_clear` list computed by `clear_lines` (for a well-formed
board, where `height = board.length`). -/
def fullIdxs (b : Board) : List Nat :=
  (List.range b.length).filter fun r => isFullRow (b.getD r [])

/-- Number of full rows of a board. -/
def numFullRows (b : Board) : Nat := (b.filter isFullRow).length

lemma fullIdxs_nil : fullIdxs [] = [] := rfl

lemma fullIdxs_cons (row : List Cell) (rest : Board) :
    fullIdxs (row :: rest) =
      (if isFullRow row then [0] else []) ++ (fullIdxs rest).map (· + 1) := by
  unfold fullIdxs
  rw [List.length_cons, List.range_succ_eq_map, List.filter_cons, List.filter_map]
  have h1 : ((fun r => isFullRow ((row :: rest).getD r [])) ∘ Nat.succ) =
      fun r => isFullRow (rest.getD r []) := by
    funext r; simp [Function.comp, List.getD_cons_succ]
  have h2 : (Nat.succ : Nat → Nat) = (· + 1) := by funext n; omega
  rw [h1, h2, List.getD_cons_zero]
  by_cases hF : isFullRow row <;> simp [hF]

lemma fullIdxs_length (b : Board) : (fullIdxs b).length = numFullRows b := by
  induction b with
  | nil => rfl
  | cons row rest ih =>
    rw [fullIdxs_cons]
    unfold numFullRows at *
    by_cases hF : isFullRow row
    · rw [List.filter_cons_of_pos hF]; simp [hF, ih]
    · rw [List.filter_cons_of_neg hF]; simp [hF, ih]

lemma length_filter_full_add (b : Board) :
    numFullRows b + (b.filter (fun r => !(isFullRow r))).length = b.length := by
  induction b with
  | nil => rfl
  | cons row rest ih =>
    unfold numFullRows at *
    by_cases hF : isFullRow row <;>
      simp [List.filter_cons, hF, ← ih] <;> omega

lemma eraseIdx_append_len {α : Type _} (l₁ : List α) (x : α) (l₂ : List α) :
    (l₁ ++ x :: l₂).eraseIdx l₁.length = l₁ ++ l₂ := by
  induction l₁ with
  | nil => rfl
  | cons a l ih => simpa [List.eraseIdx_cons_succ] using ih

/-- Core lemma: running the delete-then-prepend loop of `clear_lines`
over the indices of the full rows of `b` (shifted past an untouched
prefix `front`) yields: one fresh empty row per full row on top, the
prefix, then the non-full rows of `b` in their original order. -/
lemma clearFold_eq (e : List Cell) :
    ∀ (b front : Board),
      ((fullIdxs b).map (· + front.length)).foldl
          (fun acc r => e :: acc.eraseIdx r) (front ++ b) =
        List.replicate (fullIdxs b).length e ++ front ++
          b.filter (fun row => !(isFullRow row)) := by
  intro b
  induction b with
  | nil => intro front; simp [fullIdxs_nil]
  | cons row rest ih =>
    intro front
    rw [fullIdxs_cons]
    by_cases hF : isFullRow row
    · rw [if_pos hF]
      simp only [List.singleton_append, List.map_cons, List.map_map,
        List.foldl_cons, Nat.zero_add, List.length_cons]
      rw [eraseIdx_append_len front row rest]
      have hcomp : ((· + front.length) ∘ (· + 1) : Nat → Nat) =
          (· + (e :: front).length) := by
        funext j; simp [Function.comp, List.length_cons]; omega
      rw [hcomp]
      have hstep : e :: (front ++ rest) = (e :: front) ++ rest := rfl
      rw [hstep, ih (e :: front)]
      rw [List.length_map, List.filter_cons_of_neg (by simp [hF]),
        List.replicate_succ']
      simp [List.append_assoc]
    · rw [if_neg hF]
      simp only [List.nil_append, List.map_map]
      have hcomp : ((· + front.length) ∘ (· + 1) : Nat → Nat) =
          (· + (front ++ [row]).length) := by
        funext j; simp [List.length_append]; omega
      rw [hcomp]
      have hstep : front ++ row :: rest = (front ++ [row]) ++ rest := by
        simp [List.append_assoc]
      rw [hstep, ih (front ++ [row])]
      rw [List.length_map, List.filter_cons_of_pos (by simp [hF])]
      simp [List.append_assoc]

lemma clearedBoard_eq (g : TetrisGame) (hlen : g.board.length = g.height) :
    (fullIdxs g.board).foldl
        (fun b r => List.replicate g.width emptyCell :: b.eraseIdx r) g.board =
      List.replicate (numFullRows g.board) (List.replicate g.width emptyCell) ++
        g.board.filter (fun row => !(isFullRow row)) := by
  have h := clearFold_eq (List.replicate g.width emptyCell) g.board []
  simpa [fullIdxs_length] using h

lemma lines_to_clear_eq (g : TetrisGame) (hlen : g.board.length = g.height) :
    ((List.range g.height).filter fun r => isFullRow (g.board.getD r [])) =
      fullIdxs g.board := by
  rw [← hlen]; rfl

/-- Fully evaluated form of `clear_lines` when between 1 and 4 rows are
full (so that the `points` lookup is in range). -/
lemma clear_lines_pos (g : TetrisGame) (hWF : g.WF)
    (h1 : 0 < numFullRows g.board) (h4 : numFullRows g.board ≤ 4) :
    g.clear_lines = .ok (numFullRows g.board,
      { g with
        board := List.replicate (numFullRows g.board) (List.replicate g.width emptyCell) ++
          g.board.filter (fun row => !(isFullRow row)),
        score := g.score + POINTS.getD (numFullRows g.board) 0 * g.level,
        lines_cleared := g.lines_cleared + numFullRows g.board,
        level := (g.lines_cleared + numFullRows g.board) / 10 + 1,
        fall_speed := pyMax (0.1 : ℚ)
          (0.8 - ((((g.lines_cleared + numFullRows g.board) / 10 + 1 : Nat) : ℚ) - 1) * 0.05) }) := by
  obtain ⟨hlen, -⟩ := hWF
  simp only [TetrisGame.clear_lines, lines_to_clear_eq g hlen, clearedBoard_eq g hlen,
    fullIdxs_length]
  rw [if_pos h1]
  have hcase : numFullRows g.board = 1 ∨ numFullRows g.board = 2 ∨
      numFullRows g.board = 3 ∨ numFullRows g.board = 4 := by omega
  rcases hcase with h | h | h | h <;> rw [h] <;> rfl

/-- Fully evaluated form of `clear_lines` when no row is full. -/
lemma clear_lines_zero (g : TetrisGame) (hWF : g.WF)
    (h0 : numFullRows g.board = 0) :
    g.clear_lines = .ok (0,
      { g with board := g.board.filter (fun row => !(isFullRow row)) }) := by
  obtain ⟨hlen, -⟩ := hWF
  simp only [TetrisGame.clear_lines, lines_to_clear_eq g hlen, clearedBoard_eq g hlen,
    fullIdxs_length]
  rw [if_neg (by omega), h0]
  simp

/-- **Claim C1** (amended: at most four full rows, otherwise the scoring
lookup `points[num_lines]` raises `IndexError`): `clear_lines` removes
exactly the full rows, prepends that many empty rows, returns that
count, keeps the board at `height` rows of `width` cells, and preserves
the relative order of the surviving rows (the remaining board is
literally the `filter` of the original by non-fullness). -/
theorem clear_lines_clears_exactly_full_rows (g : TetrisGame) (hWF : g.WF)
    (h4 : numFullRows g.board ≤ 4) :
    ∃ g', g.clear_lines = .ok (numFullRows g.board, g') ∧
      g'.board = List.replicate (numFullRows g.board) (List.replicate g.width emptyCell) ++
        g.board.filter (fun row => !(isFullRow row)) ∧
      g'.board.length = g.height ∧
      (∀ row ∈ g'.board, row.length = g.width) := by
  have hdims : ∀ g' : TetrisGame,
      g'.board = List.replicate (numFullRows g.board) (List.replicate g.width emptyCell) ++
        g.board.filter (fun row => !(isFullRow row)) →
      g'.board.length = g.height ∧ ∀ row ∈ g'.board, row.length = g.width := by
    intro g' hb
    refine ⟨?_, ?_⟩
    · rw [hb, List.length_append, List.length_replicate]
      have h := length_filter_full_add g.board
      have hlen := hWF.1
      omega
    · intro row hrow
      rw [hb] at hrow
      rcases List.mem_append.1 hrow with h | h
      · rw [List.eq_of_mem_replicate h, List.length_replicate]
      · exact hWF.2 row (List.mem_of_mem_filter h)
  by_cases h1 : 0 < numFullRows g.board
  · refine ⟨_, clear_lines_pos g hWF h1 h4, rfl, (hdims _ rfl).1, (hdims _ rfl).2⟩
  · have h0 : numFullRows g.board = 0 := by omega
    refine ⟨_, by rw [clear_lines_zero g hWF h0, h0], ?_, ?_, ?_⟩
    · simp [h0]
    · exact (hdims _ (by simp [h0])).1
    · exact (hdims _ (by simp [h0])).2

/-! ## Concrete games for counterexamples and witnesses -/

/-- A full width-4 row. -/
def fullRow4 : List Cell := [GREEN, GREEN, GREEN, GREEN]

/-- An empty width-4 row. -/
def emptyRow4 : List Cell := [emptyCell, emptyCell, emptyCell, emptyCell]

/-- A 4×5 game whose board consists of five full rows. -/
def gFive : TetrisGame :=
  { width := 4, height := 5,
    board := [fullRow4, fullRow4, fullRow4, fullRow4, fullRow4],
    score := 0, level := 1, lines_cleared := 0, game_over := false,
    paused := false, current_piece := Tetromino.mkNew "O",
    next_piece := Tetromino.mkNew "O", fall_speed := 0.8, last_fall_time := 0 }

/-- **Claim C1, counterexample**: on a board configuration with five
full rows, `clear_lines` does not return the cleared-row count — the
scoring lookup `points[5]` raises `IndexError`. -/
theorem clear_lines_five_full_rows_raises :
    numFullRows gFive.board = 5 ∧
      ∀ g' : TetrisGame, gFive.clear_lines ≠ .ok (numFullRows gFive.board, g') := by
  refine ⟨rfl, fun g' hok => ?_⟩
  rw [show gFive.clear_lines = .error "IndexError" from rfl] at hok
  exact Except.noConfusion hok

/-- A 4×4 game with exactly one full (bottom) row. -/
def gOneFull : TetrisGame :=
  { width := 4, height := 4,
    board := [emptyRow4, emptyRow4, emptyRow4, fullRow4],
    score := 0, level := 1, lines_cleared := 0, game_over := false,
    paused := false, current_piece := Tetromino.mkNew "O",
    next_piece := Tetromino.mkNew "O", fall_speed := 0.8, last_fall_time := 0 }

/-- Witness for C1: the theorem applied to a concrete 4×4 board with one
full row. -/
theorem clear_lines_clears_exactly_full_rows_witness :
    ∃ g', gOneFull.clear_lines = .ok (numFullRows gOneFull.board, g') ∧
      g'.board = List.replicate (numFullRows gOneFull.board)
          (List.replicate gOneFull.width emptyCell) ++
        gOneFull.board.filter (fun row => !(isFullRow row)) ∧
      g'.board.length = gOneFull.height ∧
      (∀ row ∈ g'.board, row.length = gOneFull.width) :=
  clear_lines_clears_exactly_full_rows gOneFull (by decide) (by decide)

/-! ## `place_piece` preserves well-formedness (needed for claim C3) -/

lemma foldl_preserves {α β : Type _} (P : α → Prop) (f : α → β → α)
    (h : ∀ a b, P a → P (f a b)) : ∀ (l : List β) (a : α), P a → P (l.foldl f a) := by
  intro l
  induction l with
  | nil => intro a ha; exact ha
  | cons b bs ih => intro a ha; exact ih _ (h a b ha)

lemma boardSet_WF {height width : Nat} {b : Board} (y x : Int) (c : Cell)
    (hlen : b.length = height) (hrow : ∀ row ∈ b, row.length = width) :
    (boardSet height width b y x c).length = height ∧
      ∀ row ∈ boardSet height width b y x c, row.length = width := by
  unfold boardSet
  split
  · next hcond =>
    refine ⟨by rw [List.length_set]; exact hlen, fun row hr => ?_⟩
    rcases List.mem_or_eq_of_mem_set hr with h | h
    · exact hrow row h
    · have hy : y.toNat < b.length := by
        rw [hlen]; omega
      rw [h, List.length_set, List.getD_eq_getElem b [] hy]
      exact hrow _ (List.getElem_mem hy)
  · exact ⟨hlen, hrow⟩

lemma place_piece_WF (g : TetrisGame) (hWF : g.WF) : (g.place_piece).WF := by
  obtain ⟨hlen, hrow⟩ := hWF
  show (g.place_piece).board.length = g.height ∧
    ∀ row ∈ (g.place_piece).board, row.length = g.width
  unfold TetrisGame.place_piece
  refine foldl_preserves
    (fun b : Board => b.length = g.height ∧ ∀ row ∈ b, row.length = g.width)
    _ (fun b r hb => ?_) _ g.board ⟨hlen, hrow⟩
  refine foldl_preserves
    (fun b : Board => b.length = g.height ∧ ∀ row ∈ b, row.length = g.width)
    _ (fun b' c hb' => ?_) _ b hb
  split
  · exact boardSet_WF _ _ _ hb'.1 hb'.2
  · exact hb'

/-- Evaluated form of the pre-game-over-check part of `lock_piece`. -/
lemma lock_piece_pre_ok (g : TetrisGame) (tNext : String) (now : ℚ) {k : Nat}
    {G1 : TetrisGame} (h : (g.place_piece).clear_lines = .ok (k, G1)) :
    g.lock_piece_pre tNext now = .ok
      { G1 with current_piece := G1.next_piece,
                next_piece := G1.spawn_piece tNext,
                last_fall_time := now } := by
  unfold TetrisGame.lock_piece_pre
  rw [h]
  rfl

/-- `lock_piece` when the promoted piece is illegal: set `game_over`,
touch nothing else. -/
lemma lock_piece_of_invalid (g : TetrisGame) (tNext : String) (now : ℚ)
    {G2 : TetrisGame} (h : g.lock_piece_pre tNext now = .ok G2)
    (hv : G2.valid_position G2.current_piece 0 0 = false) :
    g.lock_piece tNext now = .ok { G2 with game_over := true } := by
  unfold TetrisGame.lock_piece
  rw [h]
  show (if ¬ G2.valid_position G2.current_piece 0 0 = true then
      Except.ok { G2 with game_over := true } else Except.ok G2) = _
  rw [if_pos (by simp [hv])]

/-- `lock_piece` when the promoted piece is legal: no flag change. -/
lemma lock_piece_of_valid (g : TetrisGame) (tNext : String) (now : ℚ)
    {G2 : TetrisGame} (h : g.lock_piece_pre tNext now = .ok G2)
    (hv : G2.valid_position G2.current_piece 0 0 = true) :
    g.lock_piece tNext now = .ok G2 := by
  unfold TetrisGame.lock_piece
  rw [h]
  show (if ¬ G2.valid_position G2.current_piece 0 0 = true then
      Except.ok { G2 with game_over := true } else Except.ok G2) = _
  rw [if_neg (by simp [hv])]

/-- **Claim C3**: when locking the current piece completes `n ∈ {1,2,3,4}`
rows, the lock adds `points[n] * level` to the score using the level in
effect before the lines are counted, and afterwards
`level = (total lines cleared) / 10 + 1`. -/
theorem lock_piece_scoring (g : TetrisGame) (tNext : String) (now : ℚ)
    (hWF : g.WF) (n : Nat) (hn : numFullRows (g.place_piece).board = n)
    (h1 : 1 ≤ n) (h4 : n ≤ 4) :
    ∃ g', g.lock_piece tNext now = .ok g' ∧
      g'.score = g.score + POINTS.getD n 0 * g.level ∧
      g'.level = (g.lines_cleared + n) / 10 + 1 := by
  have hWFp : (g.place_piece).WF := place_piece_WF g hWF
  have hpos := clear_lines_pos (g.place_piece) hWFp (by omega) (by omega)
  rw [hn] at hpos
  obtain ⟨G2, hpre2, hsc, hlv⟩ : ∃ G2, g.lock_piece_pre tNext now = .ok G2 ∧
      G2.score = g.score + POINTS.getD n 0 * g.level ∧
      G2.level = (g.lines_cleared + n) / 10 + 1 :=
    ⟨_, lock_piece_pre_ok g tNext now hpos, rfl, rfl⟩
  by_cases hv : G2.valid_position G2.current_piece 0 0 = true
  · exact ⟨G2, lock_piece_of_valid g tNext now hpre2 hv, hsc, hlv⟩
  · exact ⟨_, lock_piece_of_invalid g tNext now hpre2 (by simpa using hv), hsc, hlv⟩

/-- Witness for C3: a 4×4 game at level 3 where locking the O-piece
completes the bottom two rows, awarding 300 × 3 = 900 points. -/
def rowHalf4 : List Cell := [GREEN, GREEN, emptyCell, emptyCell]

def gTwoFull : TetrisGame :=
  { width := 4, height := 4,
    board := [emptyRow4, emptyRow4, rowHalf4, rowHalf4],
    score := 7, level := 3, lines_cleared := 21, game_over := false,
    paused := false,
    current_piece := { Tetromino.mkNew "O" with x := 2, y := 2 },
    next_piece := Tetromino.mkNew "T", fall_speed := 0.8, last_fall_time := 0 }

theorem lock_piece_scoring_witness :
    ∃ g', gTwoFull.lock_piece "I" 0 = .ok g' ∧
      g'.score = gTwoFull.score + POINTS.getD 2 0 * gTwoFull.level ∧
      g'.level = (gTwoFull.lines_cleared + 2) / 10 + 1 :=
  lock_piece_scoring gTwoFull "I" 0 (by decide) 2 (by decide) (by decide) (by decide)

/-! ## Claim C2: characterization of `valid_position` -/

lemma cellCheck_false_iff (occ A B : Prop) [Decidable occ] [Decidable A] [Decidable B] :
    ((if occ then (if A then false else if B then false else true) else true) = false)
      ↔ occ ∧ (A ∨ B) := by
  by_cases h1 : occ <;> by_cases h2 : A <;> by_cases h3 : B <;> simp [h1, h2, h3]

/-- **Claim C2**: `valid_position` returns `False` iff some occupied
cell of the piece at the offset position is out of bounds on the left,
right or bottom, or overlaps an occupied board cell at a row `≥ 0`;
rows `< 0` are never tested against board occupancy. -/
theorem valid_position_false_iff (g : TetrisGame) (p : Tetromino) (ox oy : Int) :
    g.valid_position p ox oy = false ↔
      ∃ r < p.shape.length, ∃ c < (p.shape.getD r []).length,
        (p.shape.getD r []).getD c 0 ≠ 0 ∧
        (p.x + c + ox < 0 ∨ (g.width : Int) ≤ p.x + c + ox ∨
         (g.height : Int) ≤ p.y + r + oy ∨
         (0 ≤ p.y + r + oy ∧
          (g.board.getD (p.y + r + oy).toNat []).getD (p.x + c + ox).toNat emptyCell
            ≠ emptyCell)) := by
  unfold TetrisGame.valid_position
  simp only [List.all_eq_false, List.mem_range, Bool.not_eq_true, cellCheck_false_iff,
    or_assoc]

/-! ## Claim C4: characterization of `rotate` -/

/-- Specification form of `rotate`: rotate clockwise; if illegal, apply
the first legal kick from `KICKS` (via `List.find?`); if none is legal,
leave the game completely unchanged. -/
def rotateSpec (g : TetrisGame) : TetrisGame :=
  let p' := g.current_piece.rotate_cw
  if g.valid_position p' 0 0 then { g with current_piece := p' }
  else
    match KICKS.find? (fun o => g.valid_position p' o.1 o.2) with
    | some o => { g with current_piece := { p' with x := p'.x + o.1, y := p'.y + o.2 } }
    | none => g

lemma tryKicks_eq (g : TetrisGame) (p' : Tetromino) (old : Nat) :
    ∀ l : List (Int × Int), tryKicks g p' old l =
      match l.find? (fun o => g.valid_position p' o.1 o.2) with
      | some o => { g with current_piece := { p' with x := p'.x + o.1, y := p'.y + o.2 } }
      | none => { g with current_piece :=
          { p' with rotation := old, shape := (SHAPES p'.type).getD old [] } } := by
  intro l
  induction l with
  | nil => rfl
  | cons o rest ih =>
    unfold tryKicks
    have hf : List.find? (fun q => g.valid_position p' q.1 q.2) (o :: rest) =
        if g.valid_position p' o.1 o.2 then some o
        else List.find? (fun q => g.valid_position p' q.1 q.2) rest := by
      rw [List.find?_cons]; split <;> simp_all
    by_cases h : g.valid_position p' o.1 o.2
    · simp only [hf, h, if_pos, if_true]
    · simp only [hf, h, if_false, ih, Bool.false_eq_true]

lemma revert_eq_self (p : Tetromino)
    (hsh : p.shape = (SHAPES p.type).getD p.rotation []) :
    { p.rotate_cw with rotation := p.rotation,
                       shape := (SHAPES (p.rotate_cw).type).getD p.rotation [] } = p := by
  obtain ⟨t, rot, sh, x, y⟩ := p
  simp only [Tetromino.rotate_cw] at hsh ⊢
  simp_all

/-- **Claim C4**: `rotate` advances the rotation index cyclically; an
illegal rotation tries the nudges `(-1,0),(1,0),(0,-1),(-2,0),(2,0)` in
exactly that order and applies the first legal one to the position; if
none is legal the call is a complete no-op (rotation index, shape, `x`
and `y` all revert). -/
theorem rotate_cases (g : TetrisGame)
    (hsh : g.current_piece.shape =
      (SHAPES g.current_piece.type).getD g.current_piece.rotation []) :
    g.rotate = rotateSpec g ∧
      (g.current_piece.rotate_cw).rotation =
        (g.current_piece.rotation + 1) % (SHAPES g.current_piece.type).length := by
  refine ⟨?_, rfl⟩
  unfold TetrisGame.rotate rotateSpec
  by_cases hv : g.valid_position (g.current_piece.rotate_cw) 0 0
  · rw [if_pos hv, if_pos hv]
  · rw [if_neg hv, if_neg hv, tryKicks_eq]
    cases KICKS.find? (fun o => g.valid_position (g.current_piece.rotate_cw) o.1 o.2) with
    | none => rw [revert_eq_self g.current_piece hsh]
    | some o => rfl

/-- A 4×4 game with the horizontal I-piece resting on the floor: the
rotation and every wall kick are illegal, so `rotate` is a no-op. -/
def gJam : TetrisGame :=
  { width := 4, height := 4,
    board := [emptyRow4, emptyRow4, emptyRow4, emptyRow4],
    score := 0, level := 1, lines_cleared := 0, game_over := false,
    paused := false,
    current_piece := { Tetromino.mkNew "I" with x := 0, y := 3 },
    next_piece := Tetromino.mkNew "O", fall_speed := 0.8, last_fall_time := 0 }

theorem rotate_cases_witness :
    gJam.rotate = rotateSpec gJam ∧
      (gJam.current_piece.rotate_cw).rotation =
        (gJam.current_piece.rotation + 1) % (SHAPES gJam.current_piece.type).length :=
  rotate_cases gJam (by decide)

/-! ## Claim C7: game-over detection and `update` no-op -/

/-- **Claim C7**: (a) if the piece promoted to current during
`lock_piece` is illegal at its position, the game-over flag is set and
the returned state differs from the pre-check state in the `game_over`
field only (nothing else is mutated after the detection); (b) with the
game-over or paused flag set, `update` returns the state unchanged. -/
theorem lock_piece_game_over_and_update_noop (g : TetrisGame)
    (tNext : String) (now : ℚ) :
    (∀ G2 : TetrisGame, g.lock_piece_pre tNext now = .ok G2 →
        G2.valid_position G2.current_piece 0 0 = false →
        g.lock_piece tNext now = .ok { G2 with game_over := true }) ∧
    (g.game_over = true ∨ g.paused = true → g.update now tNext = .ok g) := by
  constructor
  · exact fun G2 h hv => lock_piece_of_invalid g tNext now h hv
  · intro h
    unfold TetrisGame.update
    rcases h with h | h <;> rw [if_pos (by simp [h])]

/-- A 4×4 game whose preview O-piece sits at `(1,0)` directly on an
occupied cell, so promoting it during `lock_piece` triggers game over.
The current piece is entirely inside the spawn zone, above the board. -/
def gOver : TetrisGame :=
  { width := 4, height := 4,
    board := [[emptyCell, GREEN, emptyCell, emptyCell],
              emptyRow4, emptyRow4, fullRow4],
    score := 0, level := 1, lines_cleared := 0, game_over := false,
    paused := false,
    current_piece := { Tetromino.mkNew "O" with x := 0, y := -2 },
    next_piece := { Tetromino.mkNew "O" with x := 1, y := 0 },
    fall_speed := 0.8, last_fall_time := 5 }

/-- The state `lock_piece` reaches just before its game-over check on
`gOver` (bottom full row cleared, preview piece promoted, fresh `"I"`
preview spawned, fall timer reset). -/
def g2Over : TetrisGame :=
  { width := 4, height := 4,
    board := [emptyRow4, [emptyCell, GREEN, emptyCell, emptyCell],
              emptyRow4, emptyRow4],
    score := 100, level := 1, lines_cleared := 1, game_over := false,
    paused := false,
    current_piece := { Tetromino.mkNew "O" with x := 1, y := 0 },
    next_piece := { Tetromino.mkNew "I" with x := 0, y := -2 },
    fall_speed := 0.8, last_fall_time := 0 }

/-- A paused copy of `gOver`. -/
def gPaused : TetrisGame := { gOver with paused := true }

theorem lock_piece_game_over_and_update_noop_witness :
    gOver.lock_piece "I" 0 = .ok { g2Over with game_over := true } ∧
      gPaused.update 0 "I" = .ok gPaused :=
  ⟨(lock_piece_game_over_and_update_noop gOver "I" 0).1 g2Over
      (by with_unfolding_all decide) (by decide),
   (lock_piece_game_over_and_update_noop gPaused "I" 0).2 (Or.inr (by decide))⟩

/-! ## The move evaluator (`tetris_ai.py`)

Python `float`s are modelled by `ℚ`.  The heuristic counters are
integer-valued in the source (Python `int` wrapped in `float(...)` on
return); they are kept as `Nat` here and cast to `ℚ` where
`evaluate_board` consumes them.  Decimal weight literals are `ℚ`
scientific literals (exact).  `len(board[0])` is `(board.getD 0 []).length`
(the source never evaluates a board with no rows). -/

namespace TetrisAI

/-- `_get_column_heights`: for each column, `board_height - first
occupied row`, `0` for an empty column. -/
def get_column_heights (board : Board) : List Nat :=
  (List.range (board.getD 0 []).length).map fun col =>
    match board.findIdx? (fun row => row.getD col emptyCell != emptyCell) with
    | some r => board.length - r
    | none => 0

/-- `_get_max_height`: `max(heights)` when nonempty, else `0`. -/
def max_height (board : Board) : Nat :=
  match get_column_heights board with
  | [] => 0
  | h :: t => t.foldl max h

/-- `_aggregate_height`: `sum(heights)`. -/
def aggregate_height (board : Board) : Nat :=
  (get_column_heights board).foldl (· + ·) 0

/-- `_count_holes`: per column, empty cells below the first occupied
cell. -/
def count_holes (board : Board) : Nat :=
  (List.range (board.getD 0 []).length).foldl (fun holes col =>
    holes + (board.foldl (fun (st : Bool × Nat) row =>
      if row.getD col emptyCell != emptyCell then (true, st.2)
      else if st.1 then (st.1, st.2 + 1) else st) (false, 0)).2) 0

/-- `_calculate_bumpiness`: sum of `|heights[i] - heights[i+1]|`. -/
def calculate_bumpiness (board : Board) : Nat :=
  let heights := get_column_heights board
  (List.range (heights.length - 1)).foldl (fun acc i =>
    acc + ((heights.getD i 0 : Int) - (heights.getD (i + 1) 0 : Int)).natAbs) 0

/-- `_count_complete_lines`. -/
def count_complete_lines (board : Board) : Nat :=
  board.foldl (fun acc row => if isFullRow row then acc + 1 else acc) 0

/-- `_count_wells`: for each column strictly lower than both neighbors
(a missing neighbor counts as infinitely tall), add the square of the
minimum height difference.  (For a 1-column board the source adds an
infinite depth; unreachable here since the game only builds boards of
width ≥ 4.) -/
def count_wells (board : Board) : Nat :=
  let heights := get_column_heights board
  (List.range heights.length).foldl (fun wells i =>
    let current_height := heights.getD i 0
    let lt_left : Bool :=
      decide (i = 0) || decide (current_height < heights.getD (i - 1) 0)
    let lt_right : Bool :=
      decide (i = heights.length - 1) ||
        decide (current_height < heights.getD (i + 1) 0)
    if lt_left && lt_right then
      let well_depth : Nat :=
        if i = 0 then
          (if i = heights.length - 1 then 0
           else heights.getD (i + 1) 0 - current_height)
        else if i = heights.length - 1 then heights.getD (i - 1) 0 - current_height
        else min (heights.getD (i - 1) 0 - current_height)
                 (heights.getD (i + 1) 0 - current_height)
      wells + well_depth * well_depth
    else wells) 0

/-- `_count_row_transitions`: empty/occupied boundary changes along each
row. -/
def count_row_transitions (board : Board) : Nat :=
  board.foldl (fun acc row =>
    acc + (List.range (row.length - 1)).countP (fun i =>
      (row.getD i emptyCell == emptyCell) != (row.getD (i + 1) emptyCell == emptyCell))) 0

/-- `_count_column_transitions`. -/
def count_column_transitions (board : Board) : Nat :=
  (List.range (board.getD 0 []).length).foldl (fun acc col =>
    acc + (List.range (board.length - 1)).countP (fun row =>
      ((board.getD row []).getD col emptyCell == emptyCell) !=
        ((board.getD (row + 1) []).getD col emptyCell == emptyCell))) 0

/-- `_count_pits`: empty cells blocked (or at the edge) on both sides
with at least one occupied cell above, weighted `1 + blocks_above`. -/
def count_pits (board : Board) : Nat :=
  let heights := get_column_heights board
  (List.range (board.getD 0 []).length).foldl (fun pits col =>
    let top_row := if heights.getD col 0 > 0 then board.length - heights.getD col 0
      else board.length
    (List.range' top_row (board.length - top_row)).foldl (fun pits row =>
      if (board.getD row []).getD col emptyCell == emptyCell then
        let left_blocked : Bool :=
          decide (col = 0) || ((board.getD row []).getD (col - 1) emptyCell != emptyCell)
        let right_blocked : Bool :=
          decide (col = (board.getD 0 []).length - 1) ||
            ((board.getD row []).getD (col + 1) emptyCell != emptyCell)
        if left_blocked && right_blocked then
          let blocks_above := (List.range row).countP (fun r =>
            (board.getD r []).getD col emptyCell != emptyCell)
          if blocks_above > 0 then pits + 1 + blocks_above else pits
        else pits
      else pits) pits) 0

/-- `_evaluate_well_quality`: score the two edge columns as I-piece
wells; 10 points for a 3–4-deep well, a tapered score beyond depth 4,
×1.5 when `is_clean` — which the source computes by scanning the rows
of the column's filled span and clearing the flag whenever a cell is
*occupied* (`board[row][col] != ' '`). -/
def evaluate_well_quality (board : Board) : ℚ :=
  let heights := get_column_heights board
  let board_width := (board.getD 0 []).length
  [0, board_width - 1].foldl (fun best_well_score col =>
    let well_height := heights.getD col 0
    let neighbor_col := if col = 0 then 1 else board_width - 2
    let neighbor_height := heights.getD neighbor_col 0
    let height_diff : Int := (neighbor_height : Int) - (well_height : Int)
    if height_diff ≥ 3 then
      let well_score : ℚ :=
        if 3 ≤ height_diff ∧ height_diff ≤ 4 then 10.0
        else if height_diff > 4 then 5.0 - ((height_diff : ℚ) - 4) * 0.5
        else (height_diff : ℚ) * 2.0
      let is_clean := (List.range' (board.length - well_height) well_height).all
        (fun row => (board.getD row []).getD col emptyCell == emptyCell)
      let well_score := if is_clean then well_score * 1.5 else well_score
      pyMax best_well_score well_score
    else best_well_score) 0.0

/-- `_evaluate_tetris_readiness`: only for the I-piece; looks for a
column whose filling would complete 2–4 of the 4 rows just above the
column top. -/
def evaluate_tetris_readiness (board : Board) (piece_type : Option String) : ℚ :=
  if piece_type ≠ some "I" then 0.0
  else
    let heights := get_column_heights board
    let board_width := (board.getD 0 []).length
    let board_height := board.length
    (List.range board_width).foldl (fun max_tetris_score col =>
      let col_height := heights.getD col 0
      let start_row : Int := (board_height : Int) - (col_height : Int) - 4
      if start_row < 0 then max_tetris_score
      else
        let potential_clears := (List.range 4).countP (fun row_offset =>
          let row : Int := start_row + (row_offset : Int)
          if row < 0 ∨ (board_height : Int) ≤ row then false
          else
            let rowL := board.getD row.toNat []
            let filled := (List.range board_width).countP (fun c =>
              decide (c ≠ col) && (rowL.getD c emptyCell != emptyCell))
            decide (filled = board_width - 1) && (rowL.getD col emptyCell == emptyCell))
        if potential_clears = 4 then 50.0
        else if potential_clears = 3 then pyMax max_tetris_score 15.0
        else if potential_clears = 2 then pyMax max_tetris_score 5.0
        else max_tetris_score) 0.0

/-- The danger flag of `evaluate_board`:
`max_height > board_height * 0.6`. -/
def is_dangerous (board : Board) : Bool :=
  decide ((max_height board : ℚ) > (board.length : ℚ) * 0.6)

/-- `evaluate_board`: the 11 heuristics combined with the normal or
panic weight set, selected by the danger flag; `well_quality` and
`tetris_readiness` are forced to 0 when dangerous. -/
def evaluate_board (board : Board) (piece_type : Option String) : ℚ :=
  let height_score : ℚ := (aggregate_height board : ℚ)
  let holes_score : ℚ := (count_holes board : ℚ)
  let bumpiness_score : ℚ := (calculate_bumpiness board : ℚ)
  let lines_score : ℚ := (count_complete_lines board : ℚ)
  let max_height_score : ℚ := (max_height board : ℚ)
  let wells_score : ℚ := (count_wells board : ℚ)
  let row_transitions_score : ℚ := (count_row_transitions board : ℚ)
  let col_transitions_score : ℚ := (count_column_transitions board : ℚ)
  let pit_score : ℚ := (count_pits board : ℚ)
  let dangerous := is_dangerous board
  let well_quality_score : ℚ := if dangerous then 0 else evaluate_well_quality board
  let tetris_ready_score : ℚ :=
    if dangerous then 0 else evaluate_tetris_readiness board piece_type
  if dangerous then
    -2.0 * height_score + 1.5 * lines_score + -10.0 * holes_score +
      -1.0 * bumpiness_score + -5.0 * max_height_score + -2.0 * wells_score +
      -0.5 * row_transitions_score + -0.3 * col_transitions_score +
      -15.0 * pit_score
  else
    -0.8 * height_score + 1.2 * lines_score + -5.0 * holes_score +
      -0.3 * bumpiness_score + -1.5 * max_height_score + -0.5 * wells_score +
      -0.15 * row_transitions_score + -0.1 * col_transitions_score +
      -8.0 * pit_score + 0.3 * well_quality_score + 0.8 * tetris_ready_score

end TetrisAI

/-! ## Claim C8: the danger flag and the panic weight set -/

/-- **Claim C8**: the danger flag holds exactly when the maximum column
height strictly exceeds 0.6 × board height, and a dangerous board is
scored with the panic weight set with the `well_quality` and
`tetris_readiness` terms forced to 0 (they do not appear at all). -/
theorem evaluate_board_danger (board : Board) (t : Option String) :
    (TetrisAI.is_dangerous board = true ↔
      (TetrisAI.max_height board : ℚ) > 0.6 * (board.length : ℚ)) ∧
    (TetrisAI.is_dangerous board = true →
      TetrisAI.evaluate_board board t =
        -2.0 * (TetrisAI.aggregate_height board : ℚ) +
          1.5 * (TetrisAI.count_complete_lines board : ℚ) +
          -10.0 * (TetrisAI.count_holes board : ℚ) +
          -1.0 * (TetrisAI.calculate_bumpiness board : ℚ) +
          -5.0 * (TetrisAI.max_height board : ℚ) +
          -2.0 * (TetrisAI.count_wells board : ℚ) +
          -0.5 * (TetrisAI.count_row_transitions board : ℚ) +
          -0.3 * (TetrisAI.count_column_transitions board : ℚ) +
          -15.0 * (TetrisAI.count_pits board : ℚ)) := by
  constructor
  · rw [TetrisAI.is_dangerous, decide_eq_true_iff, mul_comm]
  · intro h
    rw [TetrisAI.evaluate_board, h]
    simp

/-- A 4-row board whose first column has height 3 (`3 > 0.6 * 4`), so
the evaluator is in panic mode. -/
def dangerBoard : Board :=
  [emptyRow4,
   [GREEN, emptyCell, emptyCell, emptyCell],
   [GREEN, emptyCell, emptyCell, emptyCell],
   [GREEN, emptyCell, emptyCell, emptyCell]]

theorem evaluate_board_danger_witness :
    TetrisAI.evaluate_board dangerBoard none =
      -2.0 * (TetrisAI.aggregate_height dangerBoard : ℚ) +
        1.5 * (TetrisAI.count_complete_lines dangerBoard : ℚ) +
        -10.0 * (TetrisAI.count_holes dangerBoard : ℚ) +
        -1.0 * (TetrisAI.calculate_bumpiness dangerBoard : ℚ) +
        -5.0 * (TetrisAI.max_height dangerBoard : ℚ) +
        -2.0 * (TetrisAI.count_wells dangerBoard : ℚ) +
        -0.5 * (TetrisAI.count_row_transitions dangerBoard : ℚ) +
        -0.3 * (TetrisAI.count_column_transitions dangerBoard : ℚ) +
        -15.0 * (TetrisAI.count_pits dangerBoard : ℚ) :=
  (evaluate_board_danger dangerBoard none).2 (by with_unfolding_all decide)

/-! ## Claim C9: the `is_clean` bonus of `_evaluate_well_quality` -/

/-- A 6×4 board: column 0 has height 2 with both cells of its filled
span occupied (no holes), its inward neighbor has height 5
(`height_diff = 3`, ideal well depth); the right edge scores nothing. -/
def c9Board : Board :=
  [emptyRow4,
   [emptyCell, GREEN, emptyCell, emptyCell],
   [emptyCell, GREEN, emptyCell, emptyCell],
   [emptyCell, GREEN, emptyCell, emptyCell],
   [GREEN, GREEN, emptyCell, emptyCell],
   [GREEN, GREEN, GREEN, GREEN]]

/-- **Claim C9, code evaluated at the failing input**: on `c9Board` the
edge column 0 is an ideal-depth well (score 10) whose filled span is
free of holes — every cell of the span is occupied — yet
`_evaluate_well_quality` returns 10, not 10 × 1.5: the source sets
`is_clean = False` whenever a span cell is *occupied*, so the ×1.5
bonus is applied exactly when the edge column is completely empty,
never when it merely has no holes. -/
theorem evaluate_well_quality_no_clean_bonus :
    TetrisAI.evaluate_well_quality c9Board = 10 ∧
      TetrisAI.get_column_heights c9Board = [2, 5, 1, 1] ∧
      (∀ row ∈ List.range' (c9Board.length - 2) 2,
        (c9Board.getD row []).getD 0 emptyCell ≠ emptyCell) := by
  refine ⟨by with_unfolding_all decide, by decide, by decide⟩

/-! ## The two-ply move search (`tetris_ai.py`)

The nested `for rotation: for x:` loops with `continue` become nested
`List.foldl` over `List.range`/`xRange` with a per-candidate step
function; `float('-inf')` sentinels become `Option ℚ` (`none` = `-inf`),
compared by `gtOpt`/`optMax` exactly as the source compares floats.
The hard-drop `while` loops get fuel `height + 2`, enough to reach the
loop's fixpoint from `y = 0` for every piece with a nonempty shape
(every legal position keeps all occupied cells at rows `< height`). -/

/-- The scratch piece built by the search: `Tetromino(type)` with
`rotation`/`shape` overwritten, `y = 0`, at column `x`. -/
def testPiece (t : String) (rot : Nat) (x : Int) : Tetromino :=
  { type := t, rotation := rot, shape := (SHAPES t).getD rot [], x := x, y := 0 }

/-- The horizontal sweep `range(-2, w + 2)`. -/
def xRange (w : Nat) : List Int := (List.range (w + 4)).map (fun i => (i : Int) - 2)

/-- The hard-drop loop against the live game:
`while valid_position(piece, offset_y=1): piece.y += 1`. -/
def dropLoop (g : TetrisGame) : Nat → Tetromino → Tetromino
  | 0, p => p
  | n + 1, p =>
    if g.valid_position p 0 1 then dropLoop g n { p with y := p.y + 1 } else p

/-- `_is_valid_on_board`: like `valid_position` but bounds come from the
scratch board itself (`len(board[0])`, `len(board)`). -/
def is_valid_on_board (p : Tetromino) (board : Board)
    (offset_x offset_y : Int) : Bool :=
  (List.range p.shape.length).all fun r =>
    (List.range (p.shape.getD r []).length).all fun c =>
      if (p.shape.getD r []).getD c 0 ≠ 0 then
        let new_y : Int := p.y + r + offset_y
        let new_x : Int := p.x + c + offset_x
        if new_x < 0 ∨ ((board.getD 0 []).length : Int) ≤ new_x ∨
            (board.length : Int) ≤ new_y then false
        else if 0 ≤ new_y ∧
            (board.getD new_y.toNat []).getD new_x.toNat emptyCell ≠ emptyCell then
          false
        else true
      else true

/-- The hard-drop loop against a scratch board. -/
def dropLoopB (board : Board) : Nat → Tetromino → Tetromino
  | 0, p => p
  | n + 1, p =>
    if is_valid_on_board p board 0 1 then dropLoopB board n { p with y := p.y + 1 }
    else p

/-- Writing a test piece's cells onto a scratch board copy, with the
source's `0 <= y < len(board) and 0 <= x_pos < len(board[0])` guard. -/
def placeOnBoard (board : Board) (p : Tetromino) : Board :=
  (List.range p.shape.length).foldl (fun b r =>
    (List.range (p.shape.getD r []).length).foldl (fun b c =>
      if (p.shape.getD r []).getD c 0 ≠ 0 then
        let y := p.y + r
        let x_pos := p.x + c
        if 0 ≤ y ∧ y < (b.length : Int) ∧ 0 ≤ x_pos ∧
            x_pos < ((b.getD 0 []).length : Int) then
          b.set y.toNat ((b.getD y.toNat []).set x_pos.toNat p.color)
        else b
      else b) b) board

/-- `_clear_lines_from_board`: keep the non-full rows, prepend one fresh
empty row per cleared row. -/
def clear_lines_from_board (board : Board) : Board :=
  let new_board := board.filter (fun row => !(isFullRow row))
  let lines_cleared := board.length - new_board.length
  List.replicate lines_cleared (List.replicate (board.getD 0 []).length emptyCell)
    ++ new_board

/-- `max(best, s)` where `best` may still be `float('-inf')` (`none`). -/
def optMax (acc : Option ℚ) (s : ℚ) : Option ℚ :=
  match acc with
  | none => some s
  | some b => some (pyMax b s)

/-- `combined_score > best_overall_score` where the best so far may
still be `float('-inf')` (`none`). -/
def gtOpt (c : ℚ) (best : Option ℚ) : Bool :=
  match best with
  | none => true
  | some b => decide (b < c)

/-- One candidate `(rotation2, x2)` of the inner (next-piece) loop.
The source reuses a single `test_piece2` across the column sweep, so
the first validity check runs at whatever `y` the previous candidate's
hard drop left behind (carried here as `st.2`; `test_piece2.y = 0` is
executed only *after* that check passes); then `y` is reset to 0, the
piece is hard-dropped, defensively re-checked, placed and cleared on a
copy, scored, and the score folded into the running maximum.  Skipped
candidates leave `y` unchanged; once the drop runs, the resting `y` is
carried to the next candidate whether or not the defensive check
passes. -/
def nextStep (board1 : Board) (t : String) (rotation2 : Nat)
    (st : Option ℚ × Int) (x2 : Int) : Option ℚ × Int :=
  let test_piece2 := { testPiece t rotation2 x2 with y := st.2 }
  if ¬ is_valid_on_board test_piece2 board1 0 0 then st
  else
    let dropped := dropLoopB board1 (board1.length + 2) (testPiece t rotation2 x2)
    if ¬ is_valid_on_board dropped board1 0 0 then (st.1, dropped.y)
    else
      (optMax st.1 (TetrisAI.evaluate_board
        (clear_lines_from_board (placeOnBoard board1 dropped)) (some t)),
       dropped.y)

/-- The inner double loop of the search: best score the next piece kind
`t` attains on the scratch board `board1` (`none` = nothing scored).
Each rotation starts a fresh `Tetromino` with `y = 0`. -/
def bestNextScore (board1 : Board) (t : String) : Option ℚ :=
  (List.range (SHAPES t).length).foldl (fun acc rotation2 =>
    ((xRange (board1.getD 0 []).length).foldl
      (nextStep board1 t rotation2) (acc, 0)).1) none

/-- One candidate `(rotation, x)` of the outer (current-piece) loop of
`_get_best_move_with_2piece_lookahead`.  As in the inner loop, the
source reuses one `test_piece` across the column sweep: the first
validity check runs at the stale `y` carried in `st.2` (0 at the start
of each rotation), and only then is `y` reset to 0 for the hard drop.
A candidate surviving the defensive post-drop check is scored (ply 1),
the inner loop supplies the best ply-2 score, the two are combined
`0.6/0.4` (ply 1 alone when the inner loop scored nothing), and the
candidate is kept only on a strictly greater combined score. -/
def searchStep (g : TetrisGame) (rotation : Nat)
    (st : (Option ℚ × Option (Nat × Int)) × Int) (x : Int) :
    (Option ℚ × Option (Nat × Int)) × Int :=
  let test_piece := { testPiece g.current_piece.type rotation x with y := st.2 }
  if ¬ g.valid_position test_piece 0 0 then st
  else
    let dropped := dropLoop g (g.height + 2) (testPiece g.current_piece.type rotation x)
    if ¬ g.valid_position dropped 0 0 then (st.1, dropped.y)
    else
      let test_board1 := clear_lines_from_board (placeOnBoard g.board dropped)
      let current_score := TetrisAI.evaluate_board test_board1 (some g.current_piece.type)
      let combined_score : ℚ :=
        match bestNextScore test_board1 g.next_piece.type with
        | none => current_score
        | some s => 0.6 * current_score + 0.4 * s
      ((if gtOpt combined_score st.1.1 then (some combined_score, some (rotation, x))
        else st.1),
       dropped.y)

/-- `_get_best_move_with_2piece_lookahead`: sweep every rotation of the
current piece (each with a fresh test piece at `y = 0`) over every
anchor column in `range(-2, width + 2)`, in that order, and return the
tracked best move (`none` when nothing was scored). -/
def get_best_move_with_2piece_lookahead (g : TetrisGame) : Option (Nat × Int) :=
  ((List.range (SHAPES g.current_piece.type).length).foldl (fun acc rotation =>
      ((xRange g.width).foldl (searchStep g rotation) (acc, 0)).1)
    ((none : Option ℚ), (none : Option (Nat × Int)))).2

/-- `get_best_move` (with its default `use_lookahead=True`). -/
def get_best_move (g : TetrisGame) : Option (Nat × Int) :=
  get_best_move_with_2piece_lookahead g

/-- State-passing form of `get_best_move`: the source never assigns to
any field of `self.game` in `get_best_move` or its lookahead helper (it
reads the board, the dimensions and the two piece kinds, and works on
fresh `Tetromino` objects and `[row[:] for row ...]` copies), so the
embedding returns the state unchanged. -/
def get_best_moveS (g : TetrisGame) : Option (Nat × Int) × TetrisGame :=
  (get_best_move g, g)

/-! ## Specification-side decomposition of the search (claim C5) -/

/-- All candidate moves of the current piece, in enumeration order:
rotation-major, then anchor column from `-2` to `width + 1`. -/
def allPairs (g : TetrisGame) : List (Nat × Int) :=
  ((List.range (SHAPES g.current_piece.type).length).map (fun rotation =>
    (xRange g.width).map (fun x => (rotation, x)))).flatten

/-- A candidate is legal when the fresh test piece at `y = 0` is valid. -/
def legal1 (g : TetrisGame) (c : Nat × Int) : Bool :=
  g.valid_position (testPiece g.current_piece.type c.1 c.2) 0 0

/-- The candidate's resting piece after the hard drop. -/
def droppedPiece (g : TetrisGame) (c : Nat × Int) : Tetromino :=
  dropLoop g (g.height + 2) (testPiece g.current_piece.type c.1 c.2)

/-- The defensive post-drop validity check of the source. -/
def legal2 (g : TetrisGame) (c : Nat × Int) : Bool :=
  g.valid_position (droppedPiece g c) 0 0

/-- The scratch board after committing and clearing the candidate. -/
def ply1Board (g : TetrisGame) (c : Nat × Int) : Board :=
  clear_lines_from_board (placeOnBoard g.board (droppedPiece g c))

/-- The candidate's ply-1 score. -/
def ply1Score (g : TetrisGame) (c : Nat × Int) : ℚ :=
  TetrisAI.evaluate_board (ply1Board g c) (some g.current_piece.type)

/-- The candidate's best ply-2 score (`none` = next piece unplaceable). -/
def bestPly2 (g : TetrisGame) (c : Nat × Int) : Option ℚ :=
  bestNextScore (ply1Board g c) g.next_piece.type

/-- The candidate's combined score:
`0.6 * ply1 + 0.4 * best_ply2`, or `ply1` alone when no ply-2 placement
exists. -/
def combinedScore (g : TetrisGame) (c : Nat × Int) : ℚ :=
  match bestPly2 g c with
  | none => ply1Score g c
  | some s => 0.6 * ply1Score g c + 0.4 * s

/-- The legal candidates, in enumeration order. -/
def candList (g : TetrisGame) : List (Nat × Int) :=
  (allPairs g).filter (legal1 g)

/-- First maximum under a strictly-greater update: a later candidate
replaces the incumbent only when its score is strictly greater, so ties
keep the earliest candidate. -/
def firstStrictMax {α : Type _} (f : α → ℚ) : List α → Option α
  | [] => none
  | c :: cs => some (cs.foldl (fun best c' => if f best < f c' then c' else best) c)

/-- All candidate placements of the inner loop on a scratch board. -/
def innerPairs (board1 : Board) (t : String) : List (Nat × Int) :=
  ((List.range (SHAPES t).length).map (fun rotation =>
    (xRange (board1.getD 0 []).length).map (fun x => (rotation, x)))).flatten

/-- Legality of an inner candidate at `y = 0`. -/
def innerLegal (board1 : Board) (t : String) (c : Nat × Int) : Bool :=
  is_valid_on_board (testPiece t c.1 c.2) board1 0 0

/-- The inner candidate's resting piece. -/
def innerDropped (board1 : Board) (t : String) (c : Nat × Int) : Tetromino :=
  dropLoopB board1 (board1.length + 2) (testPiece t c.1 c.2)

/-- The defensive post-drop check of the inner loop. -/
def innerLegal2 (board1 : Board) (t : String) (c : Nat × Int) : Bool :=
  is_valid_on_board (innerDropped board1 t c) board1 0 0

/-- The inner candidate's score. -/
def innerScore (board1 : Board) (t : String) (c : Nat × Int) : ℚ :=
  TetrisAI.evaluate_board
    (clear_lines_from_board (placeOnBoard board1 (innerDropped board1 t c))) (some t)

/-- Python `max` over a list of scores, `none` when empty. -/
def maxQ : List ℚ → Option ℚ
  | [] => none
  | s :: ss => some (ss.foldl pyMax s)

/-- The columns of one rotation's sweep that the outer loop actually
scores, given the carried-over `y` of the reused test piece: a column
failing the stale-`y` check is skipped with `y` unchanged; otherwise
the piece is hard-dropped from `y = 0` and the column is kept exactly
when the resting position passes the defensive check, the resting `y`
being carried on either way. -/
def sweepScored (g : TetrisGame) (rotation : Nat) : List Int → Int → List Int
  | [], _ => []
  | x :: xs, y =>
    if ¬ g.valid_position { testPiece g.current_piece.type rotation x with y := y } 0 0 then
      sweepScored g rotation xs y
    else
      let dropped := dropLoop g (g.height + 2) (testPiece g.current_piece.type rotation x)
      if ¬ g.valid_position dropped 0 0 then sweepScored g rotation xs dropped.y
      else x :: sweepScored g rotation xs dropped.y

/-- The candidates the program actually scores, in enumeration order
(each rotation's sweep starts with `y = 0`). -/
def scoredList (g : TetrisGame) : List (Nat × Int) :=
  ((List.range (SHAPES g.current_piece.type).length).map (fun rotation =>
    (sweepScored g rotation (xRange g.width) 0).map (fun x => (rotation, x)))).flatten

/-- Inner-loop analogue of `sweepScored`, against a scratch board. -/
def sweepScoredB (board1 : Board) (t : String) (rotation2 : Nat) :
    List Int → Int → List Int
  | [], _ => []
  | x2 :: xs, y =>
    if ¬ is_valid_on_board { testPiece t rotation2 x2 with y := y } board1 0 0 then
      sweepScoredB board1 t rotation2 xs y
    else
      let dropped := dropLoopB board1 (board1.length + 2) (testPiece t rotation2 x2)
      if ¬ is_valid_on_board dropped board1 0 0 then
        sweepScoredB board1 t rotation2 xs dropped.y
      else x2 :: sweepScoredB board1 t rotation2 xs dropped.y

/-- The inner candidates the program actually scores, in order. -/
def innerScoredList (board1 : Board) (t : String) : List (Nat × Int) :=
  ((List.range (SHAPES t).length).map (fun rotation2 =>
    (sweepScoredB board1 t rotation2 (xRange (board1.getD 0 []).length) 0).map
      (fun x2 => (rotation2, x2)))).flatten

/-! ## Search lemmas -/

lemma all_ext {α : Type _} (l : List α) (p q : α → Bool) (h : ∀ a, p a = q a) :
    l.all p = l.all q := by
  induction l with
  | nil => rfl
  | cons a as ih => simp [List.all_cons, h a, ih]

/-- Common core of the two validity checks, with the piece decomposed
into its occupancy pattern and absolute anchor coordinates. -/
def validCellsGen (W H : Nat) (board : Board) (shape : List (List Nat))
    (px py : Int) : Bool :=
  (List.range shape.length).all fun r =>
    (List.range (shape.getD r []).length).all fun c =>
      if (shape.getD r []).getD c 0 ≠ 0 then
        if px + c < 0 ∨ (W : Int) ≤ px + c ∨ (H : Int) ≤ py + r then false
        else if 0 ≤ py + r ∧
            (board.getD (py + r).toNat []).getD (px + c).toNat emptyCell ≠ emptyCell then
          false
        else true
      else true

lemma valid_position_eq (g : TetrisGame) (p : Tetromino) (ox oy : Int) :
    g.valid_position p ox oy =
      validCellsGen g.width g.height g.board p.shape (p.x + ox) (p.y + oy) := by
  unfold TetrisGame.valid_position validCellsGen
  refine all_ext _ _ _ (fun r => ?_)
  refine all_ext _ _ _ (fun c => ?_)
  have hx : p.x + ox + (c : Int) = p.x + c + ox := by ring
  have hy : p.y + oy + (r : Int) = p.y + r + oy := by ring
  simp only [hx, hy]

lemma is_valid_eq (p : Tetromino) (board : Board) (ox oy : Int) :
    is_valid_on_board p board ox oy =
      validCellsGen (board.getD 0 []).length board.length board p.shape
        (p.x + ox) (p.y + oy) := by
  unfold is_valid_on_board validCellsGen
  refine all_ext _ _ _ (fun r => ?_)
  refine all_ext _ _ _ (fun c => ?_)
  have hx : p.x + ox + (c : Int) = p.x + c + ox := by ring
  have hy : p.y + oy + (r : Int) = p.y + r + oy := by ring
  simp only [hx, hy]

lemma valid_shift_down (g : TetrisGame) (p : Tetromino) :
    g.valid_position { p with y := p.y + 1 } 0 0 = g.valid_position p 0 1 := by
  rw [valid_position_eq, valid_position_eq]
  simp only [Int.add_zero]

lemma is_valid_shift_down (p : Tetromino) (board : Board) :
    is_valid_on_board { p with y := p.y + 1 } board 0 0 =
      is_valid_on_board p board 0 1 := by
  rw [is_valid_eq, is_valid_eq]
  simp only [Int.add_zero]

/-- The hard drop preserves validity: the loop only steps while the next
position is valid, starting from a valid one. -/
lemma dropLoop_valid (g : TetrisGame) :
    ∀ (n : Nat) (p : Tetromino), g.valid_position p 0 0 = true →
      g.valid_position (dropLoop g n p) 0 0 = true := by
  intro n
  induction n with
  | zero => intro p h; exact h
  | succ n ih =>
    intro p h
    unfold dropLoop
    by_cases hstep : g.valid_position p 0 1
    · rw [if_pos hstep]
      exact ih _ (by rw [valid_shift_down]; exact hstep)
    · rw [if_neg hstep]
      exact h

lemma dropLoopB_valid (board : Board) :
    ∀ (n : Nat) (p : Tetromino), is_valid_on_board p board 0 0 = true →
      is_valid_on_board (dropLoopB board n p) board 0 0 = true := by
  intro n
  induction n with
  | zero => intro p h; exact h
  | succ n ih =>
    intro p h
    unfold dropLoopB
    by_cases hstep : is_valid_on_board p board 0 1
    · rw [if_pos hstep]
      exact ih _ (by rw [is_valid_shift_down]; exact hstep)
    · rw [if_neg hstep]
      exact h

/-- A fold of per-element folds equals a single fold over the flattened
list. -/
lemma foldl_nested_flatten {α β γ : Type _} (upd : β → γ → β) (G : α → List γ)
    (l : List α) (init : β) :
    l.foldl (fun acc a => (G a).foldl upd acc) init =
      ((l.map G).flatten).foldl upd init := by
  rw [List.foldl_flatten, List.foldl_map]

lemma legal1_imp_legal2 (g : TetrisGame) (c : Nat × Int)
    (h : legal1 g c = true) : legal2 g c = true := by
  unfold legal1 at h
  unfold legal2 droppedPiece
  exact dropLoop_valid g _ _ h

lemma innerLegal_imp_innerLegal2 (board1 : Board) (t : String) (c : Nat × Int)
    (h : innerLegal board1 t c = true) : innerLegal2 board1 t c = true := by
  unfold innerLegal at h
  unfold innerLegal2 innerDropped
  exact dropLoopB_valid board1 _ _ h

/-- Overwriting the carried `y` of a sweep piece with 0 yields the fresh
test piece again. -/
lemma withY_zero (t : String) (rot : Nat) (x : Int) :
    ({ testPiece t rot x with y := (0 : Int) } : Tetromino) = testPiece t rot x := rfl

/-- One rotation's stateful column sweep of the outer loop equals the
strictly-greater selection fold over the columns it actually scores. -/
lemma sweep_fold (g : TetrisGame) (rotation : Nat) :
    ∀ (xs : List Int) (acc : Option ℚ × Option (Nat × Int)) (y : Int),
      ((xs.foldl (searchStep g rotation) (acc, y)).1) =
        ((sweepScored g rotation xs y).map (fun x => (rotation, x))).foldl
          (fun a c =>
            if gtOpt (combinedScore g c) a.1 then (some (combinedScore g c), some c)
            else a) acc := by
  intro xs
  induction xs with
  | nil => intro acc y; rfl
  | cons x xs ih =>
    intro acc y
    rw [List.foldl_cons]
    by_cases h1 : g.valid_position
        { testPiece g.current_piece.type rotation x with y := y } 0 0
    · by_cases h2 : g.valid_position
          (dropLoop g (g.height + 2) (testPiece g.current_piece.type rotation x)) 0 0
      · have hstep : searchStep g rotation (acc, y) x =
            ((if gtOpt (combinedScore g (rotation, x)) acc.1 then
                (some (combinedScore g (rotation, x)), some (rotation, x)) else acc),
             (dropLoop g (g.height + 2)
               (testPiece g.current_piece.type rotation x)).y) := by
          unfold searchStep
          simp [combinedScore, bestPly2, ply1Score, ply1Board, droppedPiece, h1, h2]
        have hsw : sweepScored g rotation (x :: xs) y =
            x :: sweepScored g rotation xs
              (dropLoop g (g.height + 2)
                (testPiece g.current_piece.type rotation x)).y := by
          simp only [sweepScored]
          simp [h1, h2]
        rw [hstep, hsw, List.map_cons, List.foldl_cons]
        exact ih _ _
      · have hstep : searchStep g rotation (acc, y) x =
            (acc, (dropLoop g (g.height + 2)
              (testPiece g.current_piece.type rotation x)).y) := by
          unfold searchStep
          simp [h1, h2]
        have hsw : sweepScored g rotation (x :: xs) y =
            sweepScored g rotation xs
              (dropLoop g (g.height + 2)
                (testPiece g.current_piece.type rotation x)).y := by
          simp only [sweepScored]
          simp [h1, h2]
        rw [hstep, hsw]
        exact ih _ _
    · have hstep : searchStep g rotation (acc, y) x = (acc, y) := by
        unfold searchStep
        simp [h1]
      have hsw : sweepScored g rotation (x :: xs) y = sweepScored g rotation xs y := by
        simp only [sweepScored]
        simp [h1]
      rw [hstep, hsw]
      exact ih _ _

/-- One rotation's stateful column sweep of the inner loop equals the
running-maximum fold over the columns it actually scores. -/
lemma sweepB_fold (board1 : Board) (t : String) (rotation2 : Nat) :
    ∀ (xs : List Int) (acc : Option ℚ) (y : Int),
      ((xs.foldl (nextStep board1 t rotation2) (acc, y)).1) =
        ((sweepScoredB board1 t rotation2 xs y).map (fun x2 => (rotation2, x2))).foldl
          (fun a c => optMax a (innerScore board1 t c)) acc := by
  intro xs
  induction xs with
  | nil => intro acc y; rfl
  | cons x2 xs ih =>
    intro acc y
    rw [List.foldl_cons]
    by_cases h1 : is_valid_on_board
        { testPiece t rotation2 x2 with y := y } board1 0 0
    · by_cases h2 : is_valid_on_board
          (dropLoopB board1 (board1.length + 2) (testPiece t rotation2 x2)) board1 0 0
      · have hstep : nextStep board1 t rotation2 (acc, y) x2 =
            (optMax acc (innerScore board1 t (rotation2, x2)),
             (dropLoopB board1 (board1.length + 2) (testPiece t rotation2 x2)).y) := by
          unfold nextStep
          simp [innerScore, innerDropped, h1, h2]
        have hsw : sweepScoredB board1 t rotation2 (x2 :: xs) y =
            x2 :: sweepScoredB board1 t rotation2 xs
              (dropLoopB board1 (board1.length + 2) (testPiece t rotation2 x2)).y := by
          simp only [sweepScoredB]
          simp [h1, h2]
        rw [hstep, hsw, List.map_cons, List.foldl_cons]
        exact ih _ _
      · have hstep : nextStep board1 t rotation2 (acc, y) x2 =
            (acc, (dropLoopB board1 (board1.length + 2) (testPiece t rotation2 x2)).y) := by
          unfold nextStep
          simp [h1, h2]
        have hsw : sweepScoredB board1 t rotation2 (x2 :: xs) y =
            sweepScoredB board1 t rotation2 xs
              (dropLoopB board1 (board1.length + 2) (testPiece t rotation2 x2)).y := by
          simp only [sweepScoredB]
          simp [h1, h2]
        rw [hstep, hsw]
        exact ih _ _
    · have hstep : nextStep board1 t rotation2 (acc, y) x2 = (acc, y) := by
        unfold nextStep
        simp [h1]
      have hsw : sweepScoredB board1 t rotation2 (x2 :: xs) y =
          sweepScoredB board1 t rotation2 xs y := by
        simp only [sweepScoredB]
        simp [h1]
      rw [hstep, hsw]
      exact ih _ _

/-- Started at `y = 0`, a sweep scores nothing iff no column is legal at
`y = 0`: `y` changes only after a first-check pass, and at `y = 0` the
first check *is* `y = 0` legality; the first legal column then survives
the defensive check because dropping from a valid position stays
valid. -/
lemma sweepScored_nil_iff (g : TetrisGame) (rotation : Nat) :
    ∀ xs : List Int, (sweepScored g rotation xs 0 = [] ↔
      ∀ x ∈ xs, legal1 g (rotation, x) = false) := by
  intro xs
  induction xs with
  | nil => simp [sweepScored]
  | cons x xs ih =>
    by_cases h1 : legal1 g (rotation, x)
    · have h1' : g.valid_position
          { testPiece g.current_piece.type rotation x with y := (0 : Int) } 0 0 = true := by
        rw [withY_zero]; exact h1
      have h2 : legal2 g (rotation, x) = true := legal1_imp_legal2 g _ h1
      have hsw : sweepScored g rotation (x :: xs) 0 =
          x :: sweepScored g rotation xs
            (dropLoop g (g.height + 2)
              (testPiece g.current_piece.type rotation x)).y := by
        simp only [sweepScored]
        simp only [legal2, droppedPiece] at h2
        simp [h1', h2]
      rw [hsw]
      simp [h1]
    · have h1' : ¬ g.valid_position
          { testPiece g.current_piece.type rotation x with y := (0 : Int) } 0 0 = true := by
        rw [withY_zero]; exact h1
      have hsw : sweepScored g rotation (x :: xs) 0 = sweepScored g rotation xs 0 := by
        simp only [sweepScored]
        simp [h1']
      rw [hsw, ih]
      simp [h1]

/-- Inner-loop analogue of `sweepScored_nil_iff`. -/
lemma sweepScoredB_nil_iff (board1 : Board) (t : String) (rotation2 : Nat) :
    ∀ xs : List Int, (sweepScoredB board1 t rotation2 xs 0 = [] ↔
      ∀ x2 ∈ xs, innerLegal board1 t (rotation2, x2) = false) := by
  intro xs
  induction xs with
  | nil => simp [sweepScoredB]
  | cons x2 xs ih =>
    by_cases h1 : innerLegal board1 t (rotation2, x2)
    · have h1' : is_valid_on_board
          { testPiece t rotation2 x2 with y := (0 : Int) } board1 0 0 = true := by
        rw [withY_zero]; exact h1
      have h2 : innerLegal2 board1 t (rotation2, x2) = true :=
        innerLegal_imp_innerLegal2 board1 t _ h1
      have hsw : sweepScoredB board1 t rotation2 (x2 :: xs) 0 =
          x2 :: sweepScoredB board1 t rotation2 xs
            (dropLoopB board1 (board1.length + 2) (testPiece t rotation2 x2)).y := by
        simp only [sweepScoredB]
        simp only [innerLegal2, innerDropped] at h2
        simp [h1', h2]
      rw [hsw]
      simp [h1]
    · have h1' : ¬ is_valid_on_board
          { testPiece t rotation2 x2 with y := (0 : Int) } board1 0 0 = true := by
        rw [withY_zero]; exact h1
      have hsw : sweepScoredB board1 t rotation2 (x2 :: xs) 0 =
          sweepScoredB board1 t rotation2 xs 0 := by
        simp only [sweepScoredB]
        simp [h1']
      rw [hsw, ih]
      simp [h1]

/-- The program scores nothing iff no candidate is legal at `y = 0`. -/
lemma scoredList_nil_iff (g : TetrisGame) :
    scoredList g = [] ↔ ∀ c ∈ allPairs g, legal1 g c = false := by
  unfold scoredList allPairs
  rw [List.flatten_eq_nil_iff]
  constructor
  · intro h c hc
    simp only [List.mem_flatten, List.mem_map, List.mem_range] at hc
    obtain ⟨l, ⟨⟨rotation, hrot, rfl⟩, hcl⟩⟩ := hc
    obtain ⟨x, hx, rfl⟩ := List.mem_map.1 hcl
    have hnil : (sweepScored g rotation (xRange g.width) 0).map
        (fun x => (rotation, x)) = [] := by
      apply h
      exact List.mem_map_of_mem _ (List.mem_range.2 hrot)
    rw [List.map_eq_nil_iff] at hnil
    exact (sweepScored_nil_iff g rotation (xRange g.width)).1 hnil x hx
  · intro h l hl
    obtain ⟨rotation, hrot, rfl⟩ := List.mem_map.1 hl
    rw [List.map_eq_nil_iff]
    refine (sweepScored_nil_iff g rotation (xRange g.width)).2 (fun x hx => ?_)
    refine h (rotation, x) ?_
    simp only [List.mem_flatten, List.mem_map]
    exact ⟨(xRange g.width).map (fun x => (rotation, x)),
      ⟨rotation, hrot, rfl⟩, List.mem_map_of_mem _ hx⟩

lemma innerScoredList_nil_iff (board1 : Board) (t : String) :
    innerScoredList board1 t = [] ↔
      ∀ c ∈ innerPairs board1 t, innerLegal board1 t c = false := by
  unfold innerScoredList innerPairs
  rw [List.flatten_eq_nil_iff]
  constructor
  · intro h c hc
    simp only [List.mem_flatten, List.mem_map, List.mem_range] at hc
    obtain ⟨l, ⟨⟨rotation2, hrot, rfl⟩, hcl⟩⟩ := hc
    obtain ⟨x2, hx, rfl⟩ := List.mem_map.1 hcl
    have hnil : (sweepScoredB board1 t rotation2 (xRange (board1.getD 0 []).length) 0).map
        (fun x2 => (rotation2, x2)) = [] := by
      apply h
      exact List.mem_map_of_mem _ (List.mem_range.2 hrot)
    rw [List.map_eq_nil_iff] at hnil
    exact (sweepScoredB_nil_iff board1 t rotation2 _).1 hnil x2 hx
  · intro h l hl
    obtain ⟨rotation2, hrot, rfl⟩ := List.mem_map.1 hl
    rw [List.map_eq_nil_iff]
    refine (sweepScoredB_nil_iff board1 t rotation2 _).2 (fun x2 hx => ?_)
    refine h (rotation2, x2) ?_
    simp only [List.mem_flatten, List.mem_map]
    exact ⟨(xRange (board1.getD 0 []).length).map (fun x2 => (rotation2, x2)),
      ⟨rotation2, hrot, rfl⟩, List.mem_map_of_mem _ hx⟩

lemma maxQ_eq_none_iff (l : List ℚ) : maxQ l = none ↔ l = [] := by
  cases l <;> simp [maxQ]

/-- The running strictly-greater update, started from an incumbent,
computes exactly the first-maximum fold. -/
lemma selFold_eq {α : Type _} (f : α → ℚ) :
    ∀ (cs : List α) (c : α),
      cs.foldl (fun acc c' => if gtOpt (f c') acc.1 then (some (f c'), some c') else acc)
          (some (f c), some c) =
        (some (f (cs.foldl (fun best c' => if f best < f c' then c' else best) c)),
         some (cs.foldl (fun best c' => if f best < f c' then c' else best) c)) := by
  intro cs
  induction cs with
  | nil => intro c; rfl
  | cons c' cs ih =>
    intro c
    rw [List.foldl_cons, List.foldl_cons]
    by_cases h : f c < f c'
    · rw [if_pos (by simp [gtOpt, h]), if_pos h]
      exact ih c'
    · rw [if_neg (by simp [gtOpt, h]), if_neg h]
      exact ih c

lemma selFold_none_start {α : Type _} (f : α → ℚ) (l : List α) :
    (l.foldl (fun acc c' => if gtOpt (f c') acc.1 then (some (f c'), some c') else acc)
        ((none : Option ℚ), (none : Option α))).2 = firstStrictMax f l := by
  cases l with
  | nil => rfl
  | cons c cs =>
    rw [List.foldl_cons, if_pos (by simp [gtOpt]), selFold_eq]
    rfl

lemma firstStrictMax_eq_none_iff {α : Type _} (f : α → ℚ) (l : List α) :
    firstStrictMax f l = none ↔ l = [] := by
  cases l <;> simp [firstStrictMax]

lemma optMaxFold_some {α : Type _} (f : α → ℚ) :
    ∀ (cs : List α) (b : ℚ),
      cs.foldl (fun acc c => optMax acc (f c)) (some b) =
        some (cs.foldl (fun b c => pyMax b (f c)) b) := by
  intro cs
  induction cs with
  | nil => intro b; rfl
  | cons c cs ih =>
    intro b
    rw [List.foldl_cons, List.foldl_cons]
    exact ih _

lemma foldl_optMax_eq_maxQ {α : Type _} (f : α → ℚ) (l : List α) :
    l.foldl (fun acc c => optMax acc (f c)) none = maxQ (l.map f) := by
  cases l with
  | nil => rfl
  | cons c cs =>
    rw [List.foldl_cons, show optMax none (f c) = some (f c) from rfl,
      optMaxFold_some]
    unfold maxQ
    rw [List.map_cons]
    simp [List.foldl_map]

/-- **Claim C5** (amended): the two-ply search sweeps each rotation over
columns `-2 .. width+1` reusing one mutated test piece, so each
candidate's first legality check runs at the `y` left behind by the
previous candidate's hard drop (`y = 0` at the start of each rotation);
the scored candidates are exactly `scoredList` (path-dependent: a
`y = 0`-legal column can be skipped by the stale check and a
`y = 0`-illegal one scored), each scored candidate is hard-dropped from
`y = 0` and gets the combined score `0.6 * ply1 + 0.4 * best_ply2`
(ply-1 alone when the inner sweep scores nothing — see
`combinedScore`); updates happen only on strictly greater scores so
ties keep the first scored candidate; the result is `none` exactly when
no candidate at all is legal at `y = 0`; and the inner loop is the same
stale-`y` sweep of the next piece, returning `none` exactly when the
next piece has no `y = 0`-legal placement on the scratch board. -/
theorem lookahead_refines_firstStrictMax (g : TetrisGame) :
    get_best_move_with_2piece_lookahead g =
        firstStrictMax (combinedScore g) (scoredList g) ∧
      (get_best_move_with_2piece_lookahead g = none ↔
        ∀ c ∈ allPairs g, legal1 g c = false) ∧
      (∀ (board1 : Board) (t : String),
        bestNextScore board1 t =
          maxQ ((innerScoredList board1 t).map (innerScore board1 t))) ∧
      (∀ (board1 : Board) (t : String),
        (bestNextScore board1 t = none ↔
          ∀ c ∈ innerPairs board1 t, innerLegal board1 t c = false)) := by
  have hmain : get_best_move_with_2piece_lookahead g =
      firstStrictMax (combinedScore g) (scoredList g) := by
    unfold get_best_move_with_2piece_lookahead
    rw [show (fun (acc : Option ℚ × Option (Nat × Int)) (rotation : Nat) =>
          ((xRange g.width).foldl (searchStep g rotation) (acc, (0 : Int))).1) =
        (fun acc rotation =>
          ((sweepScored g rotation (xRange g.width) 0).map (fun x => (rotation, x))).foldl
            (fun a c =>
              if gtOpt (combinedScore g c) a.1 then (some (combinedScore g c), some c)
              else a) acc) from
      funext fun acc => funext fun rotation => sweep_fold g rotation (xRange g.width) acc 0]
    rw [foldl_nested_flatten
      (fun (a : Option ℚ × Option (Nat × Int)) c =>
        if gtOpt (combinedScore g c) a.1 then (some (combinedScore g c), some c) else a)
      (fun rotation =>
        (sweepScored g rotation (xRange g.width) 0).map (fun x => (rotation, x)))
      (List.range (SHAPES g.current_piece.type).length)
      ((none : Option ℚ), (none : Option (Nat × Int)))]
    exact selFold_none_start (combinedScore g) (scoredList g)
  have hinner : ∀ (board1 : Board) (t : String),
      bestNextScore board1 t =
        maxQ ((innerScoredList board1 t).map (innerScore board1 t)) := by
    intro board1 t
    unfold bestNextScore
    rw [show (fun (acc : Option ℚ) (rotation2 : Nat) =>
          ((xRange (board1.getD 0 []).length).foldl
            (nextStep board1 t rotation2) (acc, (0 : Int))).1) =
        (fun acc rotation2 =>
          ((sweepScoredB board1 t rotation2 (xRange (board1.getD 0 []).length) 0).map
            (fun x2 => (rotation2, x2))).foldl
              (fun a c => optMax a (innerScore board1 t c)) acc) from
      funext fun acc => funext fun rotation2 =>
        sweepB_fold board1 t rotation2 (xRange (board1.getD 0 []).length) acc 0]
    rw [foldl_nested_flatten
      (fun (a : Option ℚ) c => optMax a (innerScore board1 t c))
      (fun rotation2 =>
        (sweepScoredB board1 t rotation2 (xRange (board1.getD 0 []).length) 0).map
          (fun x2 => (rotation2, x2)))
      (List.range (SHAPES t).length)
      (none : Option ℚ)]
    exact foldl_optMax_eq_maxQ (innerScore board1 t) (innerScoredList board1 t)
  refine ⟨hmain, ?_, hinner, ?_⟩
  · rw [hmain, firstStrictMax_eq_none_iff]
    exact scoredList_nil_iff g
  · intro board1 t
    rw [hinner board1 t, maxQ_eq_none_iff, List.map_eq_nil_iff]
    exact innerScoredList_nil_iff board1 t

/-- A 4×4 game exhibiting the stale-`y` sweep: row 0 holds two blocks in
columns 2–3, the current and next pieces are both `O`. -/
def gStale : TetrisGame :=
  { width := 4, height := 4,
    board := [[emptyCell, emptyCell, GREEN, GREEN], emptyRow4, emptyRow4, emptyRow4],
    score := 0, level := 1, lines_cleared := 0, game_over := false,
    paused := false,
    current_piece := Tetromino.mkNew "O",
    next_piece := Tetromino.mkNew "O", fall_speed := 0.8, last_fall_time := 0 }

/-- On `gStale` only column 0 is legal at `y = 0` (an `O` at columns 1–2
or 2–3 overlaps the row-0 blocks), yet after the column-0 candidate
rests at `y = 2` the reused test piece lets columns 1 and 2 pass the
stale check at `y = 2`, tunnel through their illegal `y = 0` pose
during the drop, and get scored: the search returns the `y = 0`-illegal
`(0, 2)`, not the sole `y = 0`-legal candidate `(0, 0)` that a fresh
per-candidate enumeration would return. -/
theorem lookahead_differs_from_y0_enumeration :
    get_best_move_with_2piece_lookahead gStale = some (0, 2) ∧
      firstStrictMax (combinedScore gStale) (candList gStale) = some (0, 0) ∧
      candList gStale = [(0, 0)] ∧
      scoredList gStale = [(0, 0), (0, 1), (0, 2)] := by
  refine ⟨?_, ?_, ?_, ?_⟩ <;> with_unfolding_all decide

/-- `valid_position` reads only the dimensions and the board. -/
lemma valid_position_congr (g g' : TetrisGame)
    (hW : g'.width = g.width) (hH : g'.height = g.height) (hB : g'.board = g.board)
    (p : Tetromino) (ox oy : Int) :
    g'.valid_position p ox oy = g.valid_position p ox oy := by
  rw [valid_position_eq, valid_position_eq, hW, hH, hB]

lemma dropLoop_congr (g g' : TetrisGame)
    (hW : g'.width = g.width) (hH : g'.height = g.height) (hB : g'.board = g.board) :
    ∀ (n : Nat) (p : Tetromino), dropLoop g' n p = dropLoop g n p := by
  intro n
  induction n with
  | zero => intro p; rfl
  | succ n ih =>
    intro p
    unfold dropLoop
    rw [valid_position_congr g g' hW hH hB]
    by_cases h : g.valid_position p 0 1
    · rw [if_pos h, if_pos h, ih]
    · rw [if_neg h, if_neg h]

lemma searchStep_congr (g g' : TetrisGame)
    (hW : g'.width = g.width) (hH : g'.height = g.height) (hB : g'.board = g.board)
    (hct : g'.current_piece.type = g.current_piece.type)
    (hnt : g'.next_piece.type = g.next_piece.type)
    (rotation : Nat) (st : (Option ℚ × Option (Nat × Int)) × Int) (x : Int) :
    searchStep g' rotation st x = searchStep g rotation st x := by
  unfold searchStep
  simp only [hct, hnt, hH, hB, valid_position_congr g g' hW hH hB,
    dropLoop_congr g g' hW hH hB]

/-- The search reads only the board, its dimensions and the two piece
kinds. -/
lemma search_congr (g g' : TetrisGame)
    (hW : g'.width = g.width) (hH : g'.height = g.height) (hB : g'.board = g.board)
    (hct : g'.current_piece.type = g.current_piece.type)
    (hnt : g'.next_piece.type = g.next_piece.type) :
    get_best_move_with_2piece_lookahead g' =
      get_best_move_with_2piece_lookahead g := by
  unfold get_best_move_with_2piece_lookahead
  rw [hct, hW,
    show searchStep g' = searchStep g from
      funext fun rotation => funext fun st => funext fun x =>
        searchStep_congr g g' hW hH hB hct hnt rotation st x]

/-- **Claim C10**: `get_best_move` does not modify the game state — its
state-passing embedding returns the state unchanged — and its value
does not depend on the pose (`x`, `y`, rotation index, shape) of the
current or preview piece: the search reads only the board, the
dimensions and the two piece kinds, and works on fresh test pieces and
scratch board copies. -/
theorem get_best_move_pure (g : TetrisGame) (x y : Int) (rot : Nat)
    (sh : List (List Nat)) (x2 y2 : Int) (rot2 : Nat) (sh2 : List (List Nat)) :
    (get_best_moveS g).2 = g ∧
      get_best_move { g with
          current_piece :=
            { g.current_piece with x := x, y := y, rotation := rot, shape := sh },
          next_piece :=
            { g.next_piece with x := x2, y := y2, rotation := rot2, shape := sh2 } } =
        get_best_move g := by
  refine ⟨rfl, ?_⟩
  unfold get_best_move
  exact search_congr g _ rfl rfl rfl rfl rfl

/-! ## `execute_move` (claim C6)

The two horizontal slide loops always terminate (the piece's column
moves strictly toward the target, which also bounds the loop), so they
are defined by well-founded recursion.  The rotation loop
`while current_piece.rotation != rotation: self.game.rotate()` has no
such bound — `rotate` can fail and leave the rotation index unchanged —
so it is embedded with fuel, `none` meaning the loop is still running
after `fuel` iterations. -/

/-- `while current_piece.rotation != rotation: self.game.rotate()`. -/
def rotateLoopFuel (target : Nat) : Nat → TetrisGame → Option TetrisGame
  | 0, _ => none
  | n + 1, g =>
    if g.current_piece.rotation = target then some g
    else rotateLoopFuel target n g.rotate

/-- `while current_piece.x < target_x and valid_position(piece, offset_x=1):
current_piece.x += 1`. -/
def slideRight (g : TetrisGame) (target_x : Int) : TetrisGame :=
  if h : g.current_piece.x < target_x ∧
      g.valid_position g.current_piece 1 0 = true then
    slideRight
      { g with current_piece := { g.current_piece with x := g.current_piece.x + 1 } }
      target_x
  else g
termination_by (target_x - g.current_piece.x).toNat
decreasing_by
  show (target_x - (g.current_piece.x + 1)).toNat <
    (target_x - g.current_piece.x).toNat
  obtain ⟨h1, -⟩ := h
  omega

/-- `while current_piece.x > target_x and valid_position(piece, offset_x=-1):
current_piece.x -= 1`. -/
def slideLeft (g : TetrisGame) (target_x : Int) : TetrisGame :=
  if h : target_x < g.current_piece.x ∧
      g.valid_position g.current_piece (-1) 0 = true then
    slideLeft
      { g with current_piece := { g.current_piece with x := g.current_piece.x - 1 } }
      target_x
  else g
termination_by (g.current_piece.x - target_x).toNat
decreasing_by
  show (g.current_piece.x - 1 - target_x).toNat <
    (g.current_piece.x - target_x).toNat
  obtain ⟨h1, -⟩ := h
  omega

/-- `execute_move`: no-op on `None`; otherwise rotate step by step to
the target rotation (fuelled — the source loop can run forever), then
slide toward the target column, then speed up the fall. -/
def execute_move (fuel : Nat) (g : TetrisGame) (move : Option (Nat × Int)) :
    Option TetrisGame :=
  match move with
  | none => some g
  | some (rotation, target_x) =>
    match rotateLoopFuel rotation fuel g with
    | none => none
    | some g1 =>
      let g2 := slideRight g1 target_x
      let g3 := slideLeft g2 target_x
      some { g3 with fall_speed := 0.005, last_fall_time := 0 }

/-- **Claim C6, refuted on the code**: on `gJam` (horizontal I-piece
resting on the floor of an empty 4×4 board) the move `(1, 0)` has a
valid rotation index, yet `rotate` reverts every attempt (all wall
kicks collide with the floor), so the rotation loop of `execute_move`
never reaches the target index: for every fuel bound the loop is still
running, i.e. the Python loop runs forever. -/
theorem execute_move_rotation_loop_diverges :
    (1 < (SHAPES gJam.current_piece.type).length) ∧
      gJam.rotate = gJam ∧
      ∀ fuel : Nat, execute_move fuel gJam (some (1, 0)) = none := by
  have hrot : gJam.rotate = gJam := by rfl
  have hloop : ∀ n : Nat, rotateLoopFuel 1 n gJam = none := by
    intro n
    induction n with
    | zero => rfl
    | succ n ih =>
      unfold rotateLoopFuel
      rw [if_neg (by decide), hrot]
      exact ih
  refine ⟨by decide, hrot, fun fuel => ?_⟩
  simp only [execute_move, hloop fuel]
